import Mathlib

/-!
Verification of the incremental export core of `imexporter.py`.

The Python source is shallowly embedded: every SQLite value that can be
NULL is an `Option`, every JSON artifact is a typed record, timestamps are
modelled as whole seconds past the Apple epoch (2001-01-01 UTC) — the
ISO-8601 rendering with a fixed local offset is a bijection on instants,
so equalities and day bucketing are unaffected. Each definition carries a
doc comment naming the source function and lines it embeds.
-/

set_option maxHeartbeats 1000000

/-- Raw value of the `message.date` column as seen by `apple_time_to_iso`
(lines 95-115): NULL, an integer, or a value on which `int(...)` raises. -/
inductive RawTime where
  | null
  | num (t : Int)
  | nonNumeric
deriving DecidableEq

/-- One row of the `message` table joined with its `handle` row
(query `SQL_MESSAGES_FOR_HANDLE`, lines 210-221): `handle` is the joined
`h.id` string for `h.ROWID = m.handle_id`. -/
structure StoreRow where
  rowid : Int
  date_apple : RawTime
  is_from_me : Option Int
  text : Option String
  handle_id : Int
  handle : String
deriving DecidableEq

/-- One row of the `attachment` table joined through
`message_attachment_join` (query `SQL_ATTACHMENTS_FOR_ROWID`, lines 223-228). -/
structure AttRow where
  message_id : Int
  filename : Option String
  mime_type : Option String
deriving DecidableEq

/-- The read-only message store (the two query surfaces the program uses). -/
structure Store where
  messages : List StoreRow
  attachments : List AttRow
deriving DecidableEq

/-- Attachment descriptor dict built by `fetch_attachments_for_row`
(lines 286-289). -/
structure Att where
  filename : Option String
  mime_type : Option String
deriving DecidableEq

/-- Message record dict built by `fetch_dm_rows` (lines 277-283) and
enriched with `attachments` by `export_contact` (lines 415-419).
`date` is the decoded instant (seconds past the Apple epoch), `none` for
an undecodable raw value; `text` is nullable in JSON, which is why it is
an `Option` even though the code always stores a string there. -/
structure Rec where
  rowid : Int
  date : Option Int
  is_from_me : Int
  text : Option String
  handle_id : Int
  attachments : List Att
deriving DecidableEq

/-- One data line of the CSV artifact as written by `append_csv`
(lines 323-334); the header line is written once at file creation and is
left implicit here. -/
structure CsvRow where
  rowid : Int
  date : Option Int
  is_from_me : Int
  text : String
  atts : String
deriving DecidableEq

/-- Per-day bucket of `rollup.json` (lines 370-376): keys `me`, `them`,
`total`. -/
structure Bucket where
  me : Int
  them : Int
  total : Int
deriving DecidableEq

/-- Content of `rollup.json` (lines 351-361): `days` is a JSON object,
modelled as an insertion-ordered association list keyed by day;
`updated_at` is the timestamp `save_rollup` stamps. -/
structure Rollup where
  days : List (Int × Bucket)
  updated_at : Option Int
deriving DecidableEq

/-- Content of `state.json` (lines 311-321). Both fields are nullable in
JSON; the code writes integers resp. an ISO timestamp (modelled as an
instant). -/
structure StateFile where
  last_rowid : Option Int
  last_run_at : Option Int
deriving DecidableEq

/-- The four per-contact files of `paths_for_contact` (lines 302-309);
`none` means the file does not exist. A file that exists but fails to
parse is treated by every loader exactly like a missing one
(the `except` paths of lines 312-317, 344-346, 352-356), so the two are
identified here. -/
structure ContactFiles where
  csv : Option (List CsvRow)
  json : Option (List Rec)
  rollup : Option Rollup
  state : Option StateFile
deriving DecidableEq

/-- State of a contact directory that was just created: no files yet. -/
def emptyFiles : ContactFiles := { csv := none, json := none, rollup := none, state := none }

/-- Python `str.strip()`: drop leading and trailing whitespace. -/
def pyStrip (s : String) : String :=
  String.mk (((s.data.dropWhile Char.isWhitespace).reverse.dropWhile Char.isWhitespace).reverse)

/-- Lexicographic code-point comparison of strings, Python `<=` on `str`. -/
def charListLe : List Char → List Char → Bool
  | [], _ => true
  | _ :: _, [] => false
  | x :: xs, y :: ys => if x = y then charListLe xs ys else decide (x < y)

/-- Boolean string order used to model Python `sorted`. -/
def strLe (a b : String) : Bool := charListLe a.data b.data

/-- Insert into a sorted list, keeping order (helper of `sortStr`). -/
def insertStr (x : String) : List String → List String
  | [] => [x]
  | y :: ys => if strLe x y then x :: y :: ys else y :: insertStr x ys

/-- Python `sorted` on a list of strings (insertion sort; stable, and on
the duplicate-free lists produced below it agrees with any sort). -/
def sortStr : List String → List String
  | [] => []
  | x :: xs => insertStr x (sortStr xs)

/-- Embeds `normalize_number_variants` (lines 230-243): the raw trimmed
string, the string with every space and dash removed (the two `replace`
calls), and the digits-only form when non-empty; deduplicated (the Python
`set`) and sorted. -/
def normalize_number_variants (num : String) : List String :=
  let raw := pyStrip num
  let noSeps := String.mk (raw.data.filter (fun c => !(c = ' ' || c = '-')))
  let digits := String.mk (raw.data.filter Char.isDigit)
  let variants := ([raw, noSeps] ++ if digits ≠ "" then [digits] else []).eraseDups
  sortStr variants

/-- Embeds `apple_time_to_iso` (lines 95-115), at the resolution of its
output: the returned ISO string has one-second resolution and a fixed
local offset, so it is modelled as whole seconds past the 2001-01-01 UTC
epoch. NULL and non-numeric raw values give `none` (the `except` path).
If the magnitude exceeds 1_000_000_000_000 the raw value is nanoseconds
past the epoch, floor-truncated to the second (`Int.fdiv`, matching the
truncation `replace(microsecond=0)` of the sub-second part; the
sub-microsecond float rounding of `timedelta(seconds=t/1e9)` is idealized
as exact); otherwise it is whole seconds. -/
def apple_time_to_iso : RawTime → Option Int
  | RawTime.null => none
  | RawTime.nonNumeric => none
  | RawTime.num t => if 1000000000000 < t.natAbs then some (Int.fdiv t 1000000000) else some t

/-- Embeds `day_key_from_iso` (lines 117-119): the first ten characters of
the ISO string are its calendar date in the fixed local offset, a function
of the instant; modelled as the day number `Int.fdiv t 86400` (the fixed
local offset is folded into the constant 0 — no claim depends on its
value). `none` maps to `none`. -/
def day_key_from_iso (iso : Option Int) : Option Int :=
  iso.map (fun t => Int.fdiv t 86400)

/-- Embeds `safe_int` (lines 121-125) on the values a state file can hold:
`int(None)` raises, giving the default; an integer is returned as is. -/
def safe_int (x : Option Int) (default : Int) : Int := x.getD default

/-- Record construction inside the loop of `fetch_dm_rows` (lines 277-283):
`is_from_me` via `int(is_from_me or 0)`, `text` via `text or ""` — note a
NULL body is already coerced to the empty string here. `attachments` is
added later by `export_contact`; `r.get("attachments", [])` makes the
missing key equal to the empty list. -/
def rowToRec (m : StoreRow) (iso : Option Int) : Rec :=
  { rowid := m.rowid, date := iso, is_from_me := m.is_from_me.getD 0,
    text := some (m.text.getD ""), handle_id := m.handle_id, attachments := [] }

/-- Body of the per-row loop of `fetch_dm_rows` (lines 267-283): skip when
`min_rowid is not None and rowid <= min_rowid`; decode the date; skip when
a cutoff is set, the date decoded, and the instant is before the cutoff
(the `fromisoformat` round trip is exact on instants, so its `except`
path never fires in the model); otherwise keep the record. -/
def keepRow (min_rowid : Option Int) (cutoff : Option Int) (m : StoreRow) : Option Rec :=
  if (match min_rowid with | some mr => decide (m.rowid ≤ mr) | none => false) then none
  else
    let iso := apple_time_to_iso m.date_apple
    match cutoff, iso with
    | some cdt, some t => if t < cdt then none else some (rowToRec m iso)
    | _, _ => some (rowToRec m iso)

/-- Cutoff instant of `fetch_dm_rows` (lines 264-266): set only when
`since_days is not None and since_days > 0`, to the current time minus
that many days. -/
def sinceCutoff (since_days : Option Int) (now : Int) : Option Int :=
  match since_days with
  | some d => if 0 < d then some (now - d * 86400) else none
  | none => none

/-- Embeds `fetch_dm_rows` (lines 245-284). The SQL (lines 210-221) keeps
the messages whose joined handle string is IN the variant list, ordered by
`ROWID ASC`: since `Store.messages` is kept in the physical `ROWID` order
of the table (see `StoreWF`), the filter is precisely the ordered query
result. -/
def fetch_dm_rows (store : Store) (number : String) (min_rowid : Option Int)
    (since_days : Option Int) (now : Int) : List Rec :=
  (store.messages.filter
      (fun m => decide (m.handle ∈ normalize_number_variants number))).filterMap
    (keepRow min_rowid (sinceCutoff since_days now))

/-- Embeds `fetch_attachments_for_row` (lines 286-289). -/
def fetch_attachments_for_row (store : Store) (rowid : Int) : List Att :=
  (store.attachments.filter (fun a => decide (a.message_id = rowid))).map
    (fun a => { filename := a.filename, mime_type := a.mime_type })

/-- Embeds `load_state` (lines 311-317): missing or unparsable file gives
the default `{"last_rowid": 0, "last_run_at": None}`. -/
def load_state (file : Option StateFile) : StateFile :=
  file.getD { last_rowid := some 0, last_run_at := none }

/-- Embeds `save_state` (lines 319-321) at the content level: the written
state is the given one with `last_run_at` stamped to the current time. -/
def save_state (state : StateFile) (now : Int) : StateFile :=
  { state with last_run_at := some now }

/-- Text sanitizer of `append_csv` (line 331): every carriage return and
newline becomes a space (the two `replace` calls), then `strip()`. -/
def sanitizeText (s : String) : String :=
  pyStrip (String.mk (s.data.map (fun c => if c = '\r' then ' ' else if c = '\n' then ' ' else c)))

/-- One CSV data line as written by `append_csv` (lines 329-334):
`txt = (r.get("text") or "")` sanitized, attachments joined on `;` with
`a.get("filename", "") or ""`. -/
def toCsvRow (r : Rec) : CsvRow :=
  { rowid := r.rowid, date := r.date, is_from_me := r.is_from_me,
    text := sanitizeText (r.text.getD ""),
    atts := String.intercalate ";" (r.attachments.map (fun a => a.filename.getD "")) }

/-- Embeds `append_csv` (lines 323-334) at the content level: the data
lines already present (none for a missing file, which also gets the
header) followed by one line per new row. -/
def append_csv (file : Option (List CsvRow)) (rows : List Rec) : List CsvRow :=
  (file.getD []) ++ rows.map toCsvRow

/-- Embeds `append_json` (lines 336-349): parse the existing array
(missing or unparsable gives `[]`), extend with the new rows, write back. -/
def append_json (file : Option (List Rec)) (rows : List Rec) : List Rec :=
  (file.getD []) ++ rows

/-- Embeds `load_rollup` (lines 351-357): missing or unparsable file gives
`{"days": {}, "updated_at": iso_now()}`. -/
def load_rollup (file : Option Rollup) (now : Int) : Rollup :=
  file.getD { days := [], updated_at := some now }

/-- Embeds `save_rollup` (lines 359-361) at the content level. -/
def save_rollup (roll : Rollup) (now : Int) : Rollup :=
  { roll with updated_at := some now }

/-- Python `days.get(dk)` on the days object. -/
def lookupDay (days : List (Int × Bucket)) (k : Int) : Option Bucket :=
  (days.find? (fun kv => decide (kv.1 = k))).map (fun kv => kv.2)

/-- Python `days[dk] = v`: replace the entry in place when the key is
present, else append (JSON objects preserve insertion order). -/
def setDay (days : List (Int × Bucket)) (k : Int) (v : Bucket) : List (Int × Bucket) :=
  if days.any (fun kv => decide (kv.1 = k)) then
    days.map (fun kv => if kv.1 = k then (k, v) else kv)
  else
    days ++ [(k, v)]

/-- Body of the per-row loop of `update_rollup` (lines 366-376): rows with
no day key are skipped; otherwise the `me` or `them` count of the bucket
(default all zero) is bumped by the truthiness of `is_from_me`, and
`total` is recomputed as `me + them`. -/
def addRowToDays (days : List (Int × Bucket)) (r : Rec) : List (Int × Bucket) :=
  match day_key_from_iso r.date with
  | none => days
  | some dk =>
    let v := (lookupDay days dk).getD { me := 0, them := 0, total := 0 }
    let v := if r.is_from_me ≠ 0 then { v with me := v.me + 1 } else { v with them := v.them + 1 }
    let v := { v with total := v.me + v.them }
    setDay days dk v

/-- Embeds `update_rollup` (lines 363-377): load (or default), fold the
new rows into the days object, save with a fresh `updated_at`. -/
def update_rollup (file : Option Rollup) (new_rows : List Rec) (now : Int) : Rollup :=
  let roll := load_rollup file now
  save_rollup { roll with days := new_rows.foldl addRowToDays roll.days } now

/-- Python `max` over a non-empty list of integers (line 435); on the
empty list (never reached by the code) it yields 0. -/
def listMaxInt (l : List Int) : Int := l.foldl max (l.headD 0)

/-- The `min_rowid` / `since_days` selection of `export_contact`
(lines 398-409): scope `all` has neither bound, `last_n_days` sets
`since_days = max(0, int(days or 0))`, anything else is incremental and
bounds by `safe_int(state.get("last_rowid"), 0)`. -/
def scopeParams (state : StateFile) (scope : String) (days : Option Int) : Option Int × Option Int :=
  if scope = "all" then (none, none)
  else if scope = "last_n_days" then (none, some (max 0 (days.getD 0)))
  else (some (safe_int state.last_rowid 0), none)

/-- Embeds `export_contact` (lines 382-444) as a function from the store,
the wall clock and the current contact files to the new contact files and
the returned new-record count. Scope `none` returns immediately; an empty
fetch only re-stamps `last_run_at` (lines 421-425); otherwise the CSV and
JSON artifacts are appended to, the rollup updated, and the cursor raised
to `max(state.get("last_rowid", 0), max_rowid)` (lines 427-444). -/
def export_contact (store : Store) (now : Int) (files : ContactFiles) (contact_id : String)
    (import_scope : String) (days : Option Int) : ContactFiles × Nat :=
  let state := load_state files.state
  if import_scope = "none" then (files, 0)
  else
    let p := scopeParams state import_scope days
    let rows := fetch_dm_rows store contact_id p.1 p.2 now
    let enriched := rows.map (fun r => { r with attachments := fetch_attachments_for_row store r.rowid })
    if enriched = [] then
      ({ files with state := some (save_state state now) }, 0)
    else
      let csvOut := append_csv files.csv enriched
      let jsonOut := append_json files.json enriched
      let rollupOut := update_rollup files.rollup enriched now
      let max_rowid := listMaxInt (enriched.map Rec.rowid)
      let stateOut := save_state { state with last_rowid := some (max (state.last_rowid.getD 0) max_rowid) } now
      ({ csv := some csvOut, json := some jsonOut, rollup := some rollupOut, state := some stateOut }, enriched.length)

/-- One run of `export_contact` as triggered by the callers: the store
contents and the wall clock at that run, the scope and its `days`
argument. -/
structure RunSpec where
  store : Store
  now : Int
  scope : String
  days : Option Int

/-- A sequence of runs for one contact starting from the given files (the
caller loops of `run_export_all` / `auto_run` / `add_new_number`). -/
def runSeqFrom (files : ContactFiles) (cid : String) (runs : List RunSpec) : ContactFiles :=
  runs.foldl (fun fs r => (export_contact r.store r.now fs cid r.scope r.days).1) files

/-- A sequence of runs starting from a freshly created contact directory. -/
def runSeq (cid : String) (runs : List RunSpec) : ContactFiles :=
  runSeqFrom emptyFiles cid runs

/-- The row identifiers of the persisted structured snapshot, in file
order. -/
def snapshotRowids (files : ContactFiles) : List Int :=
  (files.json.getD []).map Rec.rowid

/-- The progress cursor a run would resume from: `safe_int` of the loaded
`last_rowid` (line 409). -/
def cursorVal (files : ContactFiles) : Int :=
  safe_int (load_state files.state).last_rowid 0

/-- The physical row order of the message table: `ROWID` is the integer
primary key, so the rows are pairwise strictly increasing in `rowid`;
`ORDER BY m.ROWID ASC` returns exactly this order. -/
def StoreWF (s : Store) : Prop :=
  s.messages.Pairwise (fun a b => a.rowid < b.rowid)

/-- Days object of a rollup file, `{}` when the file is missing. -/
def rollupDays (file : Option Rollup) : List (Int × Bucket) :=
  match file with
  | some r => r.days
  | none => []

/-- Sum of the `total` fields over all day buckets. -/
def sumTotals (days : List (Int × Bucket)) : Int :=
  (days.map (fun kv => kv.2.total)).sum

/-- The enriched row list a non-`none` run of `export_contact` works with
(lines 411-419): the fetched rows with their attachments attached. -/
def enrichedRows (store : Store) (now : Int) (files : ContactFiles) (cid : String)
    (scope : String) (days : Option Int) : List Rec :=
  (fetch_dm_rows store cid (scopeParams (load_state files.state) scope days).1
      (scopeParams (load_state files.state) scope days).2 now).map
    (fun r => { r with attachments := fetch_attachments_for_row store r.rowid })

/-- Snapshot invariant maintained by incremental runs: the persisted
row identifiers are strictly increasing, and all of them are at most the
persisted cursor. -/
def SnapInv (files : ContactFiles) : Prop :=
  (snapshotRowids files).Pairwise (· < ·) ∧ ∀ x ∈ snapshotRowids files, x ≤ cursorVal files

/-- The day keys of a days object are pairwise distinct (JSON object keys
are unique). -/
def keysNodup (days : List (Int × Bucket)) : Prop := (days.map Prod.fst).Nodup

/-- Every day bucket satisfies `total = me + them`. -/
def bucketsOk (days : List (Int × Bucket)) : Prop :=
  ∀ kv ∈ days, kv.2.total = kv.2.me + kv.2.them

/-- Rollup consistency invariant maintained by every run: unique day keys,
consistent buckets, and the totals summing to the number of snapshot
records with a non-null timestamp. -/
def RollInv (files : ContactFiles) : Prop :=
  keysNodup (rollupDays files.rollup) ∧ bucketsOk (rollupDays files.rollup) ∧
    sumTotals (rollupDays files.rollup) =
      (((files.json.getD []).countP (fun r => r.date.isSome) : Nat) : Int)

/-- Filesystem operation, for observing HOW a save writes (claim about
atomicity): a direct write of a whole file, or a rename of one path onto
another. -/
inductive FileOp where
  | write (path : String) (content : String)
  | rename (src : String) (dst : String)
deriving DecidableEq

/-- Embeds `save_state` (lines 319-321) at the level of filesystem
operations: the function performs exactly one call,
`state_path.write_text(json.dumps(state, indent=2))` — a single direct
write of the serialized state to the final path. -/
def save_state_ops (state_path : String) (content : String) : List FileOp :=
  [FileOp.write state_path content]

/-- Embeds `save_rollup` (lines 359-361) at the level of filesystem
operations: a single `rollup_path.write_text(...)` call. -/
def save_rollup_ops (rollup_path : String) (content : String) : List FileOp :=
  [FileOp.write rollup_path content]

/-- The write-to-temporary-then-atomic-rename discipline: the trace is a
write to some other path followed by a rename of that path onto the final
one. -/
def AtomicTempRename (ops : List FileOp) (final : String) : Prop :=
  ∃ tmp content, tmp ≠ final ∧ ops = [FileOp.write tmp content, FileOp.rename tmp final]

/-- Embeds the per-contact loop of `run_export_all` (lines 661-666):
`total_new = 0`; for each contact run the export and add its count. The
export operation is passed in as a function; a Python exception raised by
it is an `Except.error`, and the loop body has no handler, so the
monadic fold propagates it. The index load and the handling of a store
that fails to open (lines 645-657) happen before this loop. -/
def run_export_all_loop (exportFn : String → Except String Nat) (contacts : List String) :
    Except String Nat :=
  contacts.foldlM (fun total cid => (exportFn cid).map (fun n => total + n)) 0

/-- A store holding one direct message for handle `+1`. -/
def oneMsgStore : Store :=
  { messages := [{ rowid := 1, date_apple := RawTime.num 100, is_from_me := some 1,
                   text := some "hi", handle_id := 5, handle := "+1" }],
    attachments := [] }

/-- A store exercising the resolver: exact variants of `+447962786922` at
rows 1 and 2, an unrelated handle at row 3, and a handle that merely ends
with a variant at row 4. -/
def resolverStore : Store :=
  { messages :=
      [{ rowid := 1, date_apple := RawTime.num 100, is_from_me := some 1,
         text := some "a", handle_id := 5, handle := "+447962786922" },
       { rowid := 2, date_apple := RawTime.num 200, is_from_me := some 0,
         text := some "b", handle_id := 5, handle := "447962786922" },
       { rowid := 3, date_apple := RawTime.num 300, is_from_me := some 0,
         text := some "c", handle_id := 6, handle := "+19999999999" },
       { rowid := 4, date_apple := RawTime.num 400, is_from_me := some 0,
         text := some "d", handle_id := 7, handle := "00447962786922" }],
    attachments := [] }

/-- A store holding one message for handle `+1` whose body text is NULL. -/
def nullTextStore : Store :=
  { messages := [{ rowid := 1, date_apple := RawTime.num 100, is_from_me := some 0,
                   text := none, handle_id := 5, handle := "+1" }],
    attachments := [] }

/-- A store whose only message belongs to an unrelated handle `+2`. -/
def unrelatedStore : Store :=
  { messages := [{ rowid := 9, date_apple := RawTime.num 100, is_from_me := some 0,
                   text := some "x", handle_id := 8, handle := "+2" }],
    attachments := [] }

/-- Helper of `py_endswith`: the first list is an initial segment of the
second. -/
def leadsWith : List Char → List Char → Bool
  | [], _ => true
  | _ :: _, [] => false
  | x :: xs, y :: ys => decide (x = y) && leadsWith xs ys

/-- Python `str.endswith`: suffix match. This is the matching relation the
SPEC describes for the resolver; the code itself matches exactly. -/
def py_endswith (s suffix : String) : Bool :=
  leadsWith suffix.data.reverse s.data.reverse

/-- The record `fetch_dm_rows` produces from the NULL-body row of
`nullTextStore`. -/
def nullTextRec : Rec :=
  { rowid := 1, date := some 100, is_from_me := 0, text := some "",
    handle_id := 5, attachments := [] }

/-! ## Basic lemmas about the store reader -/

theorem keepRow_rowid {mr co : Option Int} {m : StoreRow} {r : Rec}
    (h : keepRow mr co m = some r) : r.rowid = m.rowid := by
  simp only [keepRow] at h
  split at h
  · simp at h
  · split at h
    · split at h
      · simp at h
      · cases h; rfl
    · cases h; rfl

theorem keepRow_text {mr co : Option Int} {m : StoreRow} {r : Rec}
    (h : keepRow mr co m = some r) : r.text = some (m.text.getD "") := by
  simp only [keepRow] at h
  split at h
  · simp at h
  · split at h
    · split at h
      · simp at h
      · cases h; rfl
    · cases h; rfl

theorem keepRow_gt {c : Int} {co : Option Int} {m : StoreRow} {r : Rec}
    (h : keepRow (some c) co m = some r) : c < m.rowid := by
  simp only [keepRow] at h
  split at h
  · simp at h
  · next hcond =>
    simp only [decide_eq_true_eq] at hcond
    omega

theorem keepRow_none_of_le {c : Int} {co : Option Int} {m : StoreRow}
    (h : m.rowid ≤ c) : keepRow (some c) co m = none := by
  simp [keepRow, h]

theorem mem_fetch_dm_rows {store : Store} {number : String} {mr sd : Option Int} {now : Int}
    {r : Rec} (h : r ∈ fetch_dm_rows store number mr sd now) :
    ∃ m ∈ store.messages, m.handle ∈ normalize_number_variants number ∧
      keepRow mr (sinceCutoff sd now) m = some r := by
  simp only [fetch_dm_rows, List.mem_filterMap, List.mem_filter, decide_eq_true_eq] at h
  obtain ⟨m, ⟨hm, hh⟩, hk⟩ := h
  exact ⟨m, hm, hh, hk⟩

/-! ## C5 — identifier matching -/

/-- C5 counterexample: the claim says any handle string that merely ends
with (suffix-matches) a variant is selected. The store handle
`00447962786922` ends with the variant `447962786922`, yet the fetch for
`+447962786922` over a store holding only that row selects nothing: the
SQL `IN` clause matches exactly, not by suffix. -/
theorem resolver_no_suffix_match :
    "447962786922" ∈ normalize_number_variants "+447962786922" ∧
    py_endswith "00447962786922" "447962786922" = true ∧
    fetch_dm_rows { messages := [{ rowid := 4, date_apple := RawTime.num 400,
                                   is_from_me := some 0, text := some "d",
                                   handle_id := 7, handle := "00447962786922" }],
                    attachments := [] }
      "+447962786922" none none 0 = [] := by
  refine ⟨by decide, by decide, by decide⟩

/-- C5 amended: the fetch selects store rows whose handle field is EXACTLY
one of the deduplicated variants — for `+447962786922` these are
`+447962786922` and `447962786922` — and selects no other row: not the
unrelated `+19999999999`, and not a handle that merely ends with a
variant. -/
theorem resolver_exact_variant_match :
    normalize_number_variants "+447962786922" = ["+447962786922", "447962786922"] ∧
    (∀ (store : Store) (mr sd : Option Int) (now : Int) (r : Rec),
      r ∈ fetch_dm_rows store "+447962786922" mr sd now →
      ∃ m ∈ store.messages,
        (m.handle = "+447962786922" ∨ m.handle = "447962786922") ∧ r.rowid = m.rowid) ∧
    (fetch_dm_rows resolverStore "+447962786922" none none 0).map Rec.rowid = [1, 2] := by
  refine ⟨by decide, ?_, by decide⟩
  intro store mr sd now r hr
  obtain ⟨m, hm, hh, hk⟩ := mem_fetch_dm_rows hr
  refine ⟨m, hm, ?_, keepRow_rowid hk⟩
  have hv : normalize_number_variants "+447962786922" = ["+447962786922", "447962786922"] := by
    decide
  rw [hv] at hh
  simpa using hh

/-- Witness for `resolver_exact_variant_match`: applied to the record the
fetch produces for row 1 of `resolverStore`. -/
theorem resolver_exact_variant_match_witness :
    ∃ m ∈ resolverStore.messages,
      (m.handle = "+447962786922" ∨ m.handle = "447962786922") ∧
      ({ rowid := 1, date := some 100, is_from_me := 1, text := some "a",
         handle_id := 5, attachments := [] } : Rec).rowid = m.rowid :=
  resolver_exact_variant_match.2.1 resolverStore none none 0
    { rowid := 1, date := some 100, is_from_me := 1, text := some "a",
      handle_id := 5, attachments := [] } (by decide)

/-! ## C6 — timestamp codec -/

/-- C6: the codec decodes `999_999_999_999` (at the threshold) as that
many whole seconds past the epoch, decodes `1_000_000_000_001` through the
nanosecond branch — the instant `1_000_000_000_001 / 10^9` seconds past
the epoch at the one-second output resolution — and decodes an absent
(NULL) or non-numeric raw value, and only those, to null; as a total
function it never raises. -/
theorem timestamp_codec_boundary :
    apple_time_to_iso (RawTime.num 999999999999) = some 999999999999 ∧
    apple_time_to_iso (RawTime.num 1000000000001) = some (Int.fdiv 1000000000001 1000000000) ∧
    apple_time_to_iso RawTime.null = none ∧
    apple_time_to_iso RawTime.nonNumeric = none ∧
    ∀ t : RawTime, (apple_time_to_iso t = none ↔ t = RawTime.null ∨ t = RawTime.nonNumeric) := by
  refine ⟨by decide, by decide, rfl, rfl, ?_⟩
  intro t
  cases t with
  | null => simp [apple_time_to_iso]
  | nonNumeric => simp [apple_time_to_iso]
  | num t =>
    simp only [apple_time_to_iso]
    constructor
    · intro h; split at h <;> simp at h
    · rintro (h | h) <;> simp at h

/-! ## C7 — atomicity of saves -/

/-- C7 counterexample: neither `save_state` nor `save_rollup` follows the
write-to-temporary-then-rename discipline the claim asserts: each trace is
a single operation, so it cannot be the two-operation atomic pattern. -/
theorem save_not_temp_rename :
    ¬ AtomicTempRename (save_state_ops "state.json" "x") "state.json" ∧
    ¬ AtomicTempRename (save_rollup_ops "rollup.json" "x") "rollup.json" := by
  constructor
  · rintro ⟨tmp, content, -, heq⟩
    simp [save_state_ops] at heq
  · rintro ⟨tmp, content, -, heq⟩
    simp [save_rollup_ops] at heq

/-- C7 amended: every save of the state file and of the rollup file is a
single direct `write_text` to the final path — no temporary file is
written and no rename is performed — so the temp-file-plus-atomic-rename
discipline is absent and a process interruption mid-write can leave a
half-written file (which the loaders then treat as empty/default). -/
theorem save_direct_write (p c : String) :
    save_state_ops p c = [FileOp.write p c] ∧
    save_rollup_ops p c = [FileOp.write p c] :=
  ⟨rfl, rfl⟩

/-! ## C8 — null body text -/

/-- C8 counterexample: the store row has a NULL body text, but the record
in the persisted structured snapshot holds the empty string (`some ""`),
not null — `fetch_dm_rows` already coerces with `text or ""`. -/
theorem null_text_not_preserved :
    nullTextStore.messages.map StoreRow.text = [none] ∧
    ((export_contact nullTextStore 0 emptyFiles "+1" "all" none).1.json.getD []).map Rec.text
      = [some ""] ∧
    (some "" : Option String) ≠ none := by
  refine ⟨by decide, by decide, by decide⟩

/-- C8 amended: a NULL body text is coerced to the empty string already at
fetch time (`"text": text or ""`), so every fetched record carries
`some (text or "")` — never null — into the structured snapshot, and the
flattened CSV line carries the same string sanitized; for a NULL source
body both artifacts hold the empty string, and null is not
distinguishable from the empty string in either. -/
theorem null_text_coerced_at_fetch (store : Store) (number : String) (mr sd : Option Int)
    (now : Int) (r : Rec) (h : r ∈ fetch_dm_rows store number mr sd now) :
    (∃ m ∈ store.messages, r.text = some (m.text.getD "") ∧
      (m.text = none → r.text = some "" ∧ sanitizeText (r.text.getD "") = "")) ∧
    r.text ≠ none := by
  obtain ⟨m, hm, -, hk⟩ := mem_fetch_dm_rows h
  have ht := keepRow_text hk
  refine ⟨⟨m, hm, ht, ?_⟩, by simp [ht]⟩
  intro hnone
  rw [hnone] at ht
  exact ⟨ht, by rw [ht]; decide⟩

/-- Witness for `null_text_coerced_at_fetch`: applied to the record the
fetch produces from the NULL-body row of `nullTextStore`. -/
theorem null_text_coerced_at_fetch_witness :
    (∃ m ∈ nullTextStore.messages, nullTextRec.text = some (m.text.getD "") ∧
      (m.text = none → nullTextRec.text = some "" ∧
        sanitizeText (nullTextRec.text.getD "") = "")) ∧
    nullTextRec.text ≠ none :=
  null_text_coerced_at_fetch nullTextStore "+1" none none 0 nullTextRec (by decide)

/-! ## C9 — batch error handling -/

/-- C9 counterexample: with two contacts where exporting the first raises,
the batch result is that error — the loop does not continue to the second
contact, whose export alone would have contributed a count of 5. There is
no try/except around the loop body, so a contact-level failure aborts the
batch. -/
theorem export_loop_aborts_on_failure :
    run_export_all_loop (fun c => if c = "A" then Except.error "boom" else Except.ok 5)
      ["A", "B"] = Except.error "boom" ∧
    run_export_all_loop (fun c => if c = "A" then Except.error "boom" else Except.ok 5)
      ["B"] = Except.ok 5 := by
  exact ⟨rfl, rfl⟩

/-- C9 amended: a failure raised while exporting a contact aborts the
batch at that contact: the error propagates out of the loop and the
remaining contacts are not exported. Only a store that fails to open is
handled (before the loop, aborting the whole operation without raising). -/
theorem export_loop_propagates_first_error (f : String → Except String Nat) (e cid : String)
    (rest : List String) (h : f cid = Except.error e) :
    run_export_all_loop f (cid :: rest) = Except.error e := by
  simp [run_export_all_loop, List.foldlM, h, Except.map, Bind.bind, Except.bind]

/-- Witness for `export_loop_propagates_first_error`. -/
theorem export_loop_propagates_first_error_witness :
    run_export_all_loop (fun c => if c = "X" then Except.error "db error" else Except.ok 1)
      ["X", "Y", "Z"] = Except.error "db error" :=
  export_loop_propagates_first_error
    (fun c => if c = "X" then Except.error "db error" else Except.ok 1)
    "db error" "X" ["Y", "Z"] rfl

/-! ## C10 — contact with no matching store rows -/

/-- C10 counterexample: loading state for a never-seen contact yields a
cursor of 0 — an integer, not null — and an export that matches no store
rows still creates the state file (the zero-new-rows branch calls
`save_state` to record the run time), so a file IS created beyond the
contact directory. -/
theorem no_match_creates_state_file :
    (load_state none).last_rowid = some 0 ∧
    (export_contact { messages := [], attachments := [] } 0 emptyFiles "+1"
        "incremental" none).1.state ≠ none := by
  refine ⟨rfl, by decide⟩

/-- C10 amended: for a contact identifier matching no store rows, the
export completes with 0 new records; loading state for a never-seen
contact yields cursor 0 (not null) and null last-run without raising; the
cursor value stays 0; and the only file written beyond the contact
directory is the state file recording the run time — no snapshot, CSV or
rollup file is created. -/
theorem no_match_export_outcome (store : Store) (now : Int) (cid : String)
    (h : ∀ m ∈ store.messages, m.handle ∉ normalize_number_variants cid) :
    load_state none = { last_rowid := some 0, last_run_at := none } ∧
    export_contact store now emptyFiles cid "incremental" none =
      ({ csv := none, json := none, rollup := none,
         state := some { last_rowid := some 0, last_run_at := some now } }, 0) := by
  refine ⟨rfl, ?_⟩
  have hfilter :
      store.messages.filter (fun m => decide (m.handle ∈ normalize_number_variants cid)) = [] := by
    rw [List.filter_eq_nil_iff]
    intro m hm
    simpa using h m hm
  simp only [export_contact, fetch_dm_rows, hfilter, List.filterMap_nil, List.map_nil,
    scopeParams, load_state, save_state, emptyFiles, safe_int]
  rfl

/-- Witness for `no_match_export_outcome`: a store whose only message
belongs to the unrelated handle `+2`, exported for contact `+1`. -/
theorem no_match_export_outcome_witness :
    load_state none = { last_rowid := some 0, last_run_at := none } ∧
    export_contact unrelatedStore 7 emptyFiles "+1" "incremental" none =
      ({ csv := none, json := none, rollup := none,
         state := some { last_rowid := some 0, last_run_at := some 7 } }, 0) :=
  no_match_export_outcome unrelatedStore 7 "+1" (by decide)

/-! ## Structural lemmas about `export_contact` -/

theorem export_contact_none_scope (store : Store) (now : Int) (files : ContactFiles)
    (cid : String) (days : Option Int) :
    export_contact store now files cid "none" days = (files, 0) := rfl

theorem export_contact_spec (store : Store) (now : Int) (files : ContactFiles) (cid : String)
    (scope : String) (days : Option Int) (h : scope ≠ "none") :
    export_contact store now files cid scope days =
      if enrichedRows store now files cid scope days = [] then
        ({ files with state := some (save_state (load_state files.state) now) }, 0)
      else
        ({ csv := some (append_csv files.csv (enrichedRows store now files cid scope days)),
           json := some (append_json files.json (enrichedRows store now files cid scope days)),
           rollup := some (update_rollup files.rollup
             (enrichedRows store now files cid scope days) now),
           state := some (save_state
             { load_state files.state with
               last_rowid := some (max ((load_state files.state).last_rowid.getD 0)
                 (listMaxInt ((enrichedRows store now files cid scope days).map Rec.rowid))) }
             now) },
         (enrichedRows store now files cid scope days).length) := by
  simp only [export_contact, enrichedRows, if_neg h]

theorem enrichedRows_rowids (store : Store) (now : Int) (files : ContactFiles) (cid : String)
    (scope : String) (days : Option Int) :
    (enrichedRows store now files cid scope days).map Rec.rowid =
      (fetch_dm_rows store cid (scopeParams (load_state files.state) scope days).1
        (scopeParams (load_state files.state) scope days).2 now).map Rec.rowid := by
  simp only [enrichedRows, List.map_map]
  rfl

theorem scopeParams_incremental (state : StateFile) (days : Option Int) :
    scopeParams state "incremental" days = (some (safe_int state.last_rowid 0), none) := rfl

theorem le_foldl_max (l : List Int) (a : Int) : a ≤ l.foldl max a := by
  induction l generalizing a with
  | nil => simp
  | cons b l ih => exact le_trans (le_max_left a b) (ih (max a b))

theorem mem_le_foldl_max {x : Int} {l : List Int} (h : x ∈ l) : ∀ a : Int, x ≤ l.foldl max a := by
  induction l with
  | nil => simp at h
  | cons b l ih =>
    intro a
    rcases List.mem_cons.mp h with rfl | h
    · exact le_trans (le_max_right a x) (le_foldl_max l (max a x))
    · exact ih h (max a b)

theorem mem_le_listMaxInt {x : Int} {l : List Int} (h : x ∈ l) : x ≤ listMaxInt l :=
  mem_le_foldl_max h _

theorem pairwise_filterMap_of {α β : Type} {R : α → α → Prop} {S : β → β → Prop}
    (f : α → Option β)
    (H : ∀ a b, R a b → ∀ x, f a = some x → ∀ y, f b = some y → S x y) :
    ∀ {l : List α}, l.Pairwise R → (l.filterMap f).Pairwise S := by
  intro l hl
  induction hl with
  | nil => simp
  | @cons a l ha _ ih =>
    rw [List.filterMap_cons]
    cases hfa : f a with
    | none => exact ih
    | some x =>
      refine List.Pairwise.cons ?_ ih
      intro y hy
      obtain ⟨b, hb, hfb⟩ := List.mem_filterMap.mp hy
      exact H a b (ha b hb) x hfa y hfb

theorem fetch_rowids_pairwise {store : Store} (hwf : StoreWF store) (number : String)
    (mr sd : Option Int) (now : Int) :
    ((fetch_dm_rows store number mr sd now).map Rec.rowid).Pairwise (· < ·) := by
  rw [List.pairwise_map]
  apply pairwise_filterMap_of (keepRow mr (sinceCutoff sd now))
  · intro a b hab x hx y hy
    rw [keepRow_rowid hx, keepRow_rowid hy]
    exact hab
  · exact List.Pairwise.filter _ hwf

theorem fetch_rowid_gt {store : Store} {number : String} {sd : Option Int} {now c : Int}
    {r : Rec} (h : r ∈ fetch_dm_rows store number (some c) sd now) : c < r.rowid := by
  obtain ⟨m, _, _, hk⟩ := mem_fetch_dm_rows h
  rw [keepRow_rowid hk]
  exact keepRow_gt hk

/-! ## C1 — snapshot row identifiers -/

theorem snapinv_export_incremental {store : Store} {files : ContactFiles} (now : Int)
    (cid : String) (days : Option Int) (hwf : StoreWF store) (hinv : SnapInv files) :
    SnapInv (export_contact store now files cid "incremental" days).1 := by
  have hspec := export_contact_spec store now files cid "incremental" days (by decide)
  by_cases hE0 : enrichedRows store now files cid "incremental" days = []
  · rw [hspec, if_pos hE0]
    exact hinv
  · rw [hspec, if_neg hE0]
    have hrow := enrichedRows_rowids store now files cid "incremental" days
    rw [scopeParams_incremental] at hrow
    have hfetch_pair :
        ((enrichedRows store now files cid "incremental" days).map Rec.rowid).Pairwise (· < ·) := by
      rw [hrow]
      exact fetch_rowids_pairwise hwf cid _ _ now
    have hfetch_gt :
        ∀ y ∈ (enrichedRows store now files cid "incremental" days).map Rec.rowid,
          cursorVal files < y := by
      intro y hy
      rw [hrow] at hy
      obtain ⟨r, hr, rfl⟩ := List.mem_map.mp hy
      exact fetch_rowid_gt hr
    have hsnap :
        snapshotRowids
          ({ csv := some (append_csv files.csv (enrichedRows store now files cid "incremental" days)),
             json := some (append_json files.json (enrichedRows store now files cid "incremental" days)),
             rollup := some (update_rollup files.rollup
               (enrichedRows store now files cid "incremental" days) now),
             state := some (save_state
               { load_state files.state with
                 last_rowid := some (max ((load_state files.state).last_rowid.getD 0)
                   (listMaxInt ((enrichedRows store now files cid "incremental" days).map Rec.rowid))) }
               now) } : ContactFiles) =
          snapshotRowids files ++
            (enrichedRows store now files cid "incremental" days).map Rec.rowid := by
      simp [snapshotRowids, append_json]
    constructor
    · rw [hsnap, List.pairwise_append]
      refine ⟨hinv.1, hfetch_pair, ?_⟩
      intro a ha b hb
      exact lt_of_le_of_lt (hinv.2 a ha) (hfetch_gt b hb)
    · intro x hx
      rw [hsnap] at hx
      have hcur :
          cursorVal
            ({ csv := some (append_csv files.csv (enrichedRows store now files cid "incremental" days)),
               json := some (append_json files.json (enrichedRows store now files cid "incremental" days)),
               rollup := some (update_rollup files.rollup
                 (enrichedRows store now files cid "incremental" days) now),
               state := some (save_state
                 { load_state files.state with
                   last_rowid := some (max ((load_state files.state).last_rowid.getD 0)
                     (listMaxInt ((enrichedRows store now files cid "incremental" days).map Rec.rowid))) }
                 now) } : ContactFiles) =
            max (cursorVal files)
              (listMaxInt ((enrichedRows store now files cid "incremental" days).map Rec.rowid)) := rfl
      rw [hcur]
      rcases List.mem_append.mp hx with hx | hx
      · exact le_trans (hinv.2 x hx) (le_max_left _ _)
      · exact le_trans (mem_le_listMaxInt hx) (le_max_right _ _)

theorem snapinv_runSeqFrom {cid : String} {files : ContactFiles} {runs : List RunSpec}
    (h : ∀ r ∈ runs, StoreWF r.store ∧ r.scope = "incremental") (hinv : SnapInv files) :
    SnapInv (runSeqFrom files cid runs) := by
  induction runs generalizing files with
  | nil => exact hinv
  | cons r rs ih =>
    have hr := h r (List.mem_cons_self r rs)
    have hstep : SnapInv (export_contact r.store r.now files cid r.scope r.days).1 := by
      rw [hr.2]
      exact snapinv_export_incremental r.now cid r.days hr.1 hinv
    exact ih (fun x hx => h x (List.mem_cons_of_mem r hx)) hstep

/-- C1 amended: for every contact and every sequence of INCREMENTAL export
runs (the default scope) from a fresh contact directory — the store may
change arbitrarily between runs, as long as each snapshot of it lists its
rows in `ROWID` order — the persisted snapshot has no repeated `row_id`
and is non-decreasing (in fact strictly increasing) by `row_id`. The
restriction to the incremental scope is forced by the counterexample:
re-running under scope `all` (or `last_n_days`) re-fetches and re-appends
already-exported rows. -/
theorem incremental_snapshot_rowids_nodup_sorted (cid : String) (runs : List RunSpec)
    (h : ∀ r ∈ runs, StoreWF r.store ∧ r.scope = "incremental") :
    (snapshotRowids (runSeq cid runs)).Nodup ∧
    (snapshotRowids (runSeq cid runs)).Sorted (· ≤ ·) := by
  have hinv : SnapInv (runSeq cid runs) := by
    apply snapinv_runSeqFrom h
    exact ⟨List.Pairwise.nil, by intro x hx; simp [snapshotRowids, emptyFiles] at hx⟩
  exact ⟨List.Pairwise.imp (fun hab => ne_of_lt hab) hinv.1,
         List.Pairwise.imp (fun hab => le_of_lt hab) hinv.1⟩

/-- Witness for `incremental_snapshot_rowids_nodup_sorted`: one
incremental run over `oneMsgStore`. -/
theorem incremental_snapshot_rowids_nodup_sorted_witness :
    (snapshotRowids (runSeq "+1" [⟨oneMsgStore, 0, "incremental", none⟩])).Nodup ∧
    (snapshotRowids (runSeq "+1" [⟨oneMsgStore, 0, "incremental", none⟩])).Sorted (· ≤ ·) :=
  incremental_snapshot_rowids_nodup_sorted "+1" [⟨oneMsgStore, 0, "incremental", none⟩]
    (by
      intro r hr
      rw [List.mem_singleton] at hr
      subst hr
      exact ⟨by simp [StoreWF, oneMsgStore], rfl⟩)

/-- C1 counterexample: the claim quantifies over ANY import scope the
program offers. Running scope `all` twice for the same contact (possible
by invoking Add New Number again for an existing contact) over an
unchanged one-row store appends the row a second time: the snapshot
row_ids become `[1, 1]`, which has a repeat. -/
theorem rerun_all_scope_duplicates_rowids :
    snapshotRowids ((export_contact oneMsgStore 0
        ((export_contact oneMsgStore 0 emptyFiles "+1" "all" none).1) "+1" "all" none).1)
      = [1, 1] ∧
    ¬ ([(1 : Int), 1].Nodup) := by
  refine ⟨by decide, by decide⟩

/-! ## C3 and C4 — cursor behavior and idempotence -/

theorem cursorVal_save_unchanged (files : ContactFiles) (now : Int) :
    cursorVal { files with state := some (save_state (load_state files.state) now) }
      = cursorVal files := rfl

theorem cursorVal_le_export (store : Store) (now : Int) (files : ContactFiles) (cid : String)
    (scope : String) (days : Option Int) :
    cursorVal files ≤ cursorVal (export_contact store now files cid scope days).1 := by
  by_cases hs : scope = "none"
  · subst hs
    rw [export_contact_none_scope]
  · rw [export_contact_spec store now files cid scope days hs]
    by_cases hE : enrichedRows store now files cid scope days = []
    · rw [if_pos hE]
      exact le_of_eq (cursorVal_save_unchanged files now).symm
    · rw [if_neg hE]
      exact le_max_left _ _

theorem cursorVal_runSeqFrom_mono (cid : String) (files : ContactFiles) (runs : List RunSpec) :
    cursorVal files ≤ cursorVal (runSeqFrom files cid runs) := by
  induction runs generalizing files with
  | nil => exact le_refl _
  | cons r rs ih =>
    exact le_trans (cursorVal_le_export r.store r.now files cid r.scope r.days)
      (ih (export_contact r.store r.now files cid r.scope r.days).1)

/-- C3: after a run that fetched new rows, the persisted cursor equals
`max(existing cursor, max row_id over the fetched rows)`; after a run that
fetched no new rows (count 0) the cursor is unchanged; and the cursor is
non-decreasing across any sequence of runs, under every scope. -/
theorem cursor_update_rule (store : Store) (now : Int) (files : ContactFiles) (cid : String)
    (scope : String) (days : Option Int) :
    (scope ≠ "none" →
      fetch_dm_rows store cid (scopeParams (load_state files.state) scope days).1
        (scopeParams (load_state files.state) scope days).2 now ≠ [] →
      cursorVal (export_contact store now files cid scope days).1 =
        max (cursorVal files)
          (listMaxInt ((fetch_dm_rows store cid
            (scopeParams (load_state files.state) scope days).1
            (scopeParams (load_state files.state) scope days).2 now).map Rec.rowid))) ∧
    ((export_contact store now files cid scope days).2 = 0 →
      cursorVal (export_contact store now files cid scope days).1 = cursorVal files) ∧
    (∀ runs : List RunSpec, cursorVal files ≤ cursorVal (runSeqFrom files cid runs)) := by
  refine ⟨?_, ?_, fun runs => cursorVal_runSeqFrom_mono cid files runs⟩
  · intro hs hf
    have hE : enrichedRows store now files cid scope days ≠ [] := by
      intro h0
      apply hf
      have := congrArg (List.map Rec.rowid) h0
      rw [enrichedRows_rowids] at this
      simpa using this
    rw [export_contact_spec store now files cid scope days hs, if_neg hE]
    have hcur :
        cursorVal
          ({ csv := some (append_csv files.csv (enrichedRows store now files cid scope days)),
             json := some (append_json files.json (enrichedRows store now files cid scope days)),
             rollup := some (update_rollup files.rollup
               (enrichedRows store now files cid scope days) now),
             state := some (save_state
               { load_state files.state with
                 last_rowid := some (max ((load_state files.state).last_rowid.getD 0)
                   (listMaxInt ((enrichedRows store now files cid scope days).map Rec.rowid))) }
               now) } : ContactFiles) =
          max (cursorVal files)
            (listMaxInt ((enrichedRows store now files cid scope days).map Rec.rowid)) := rfl
    rw [hcur, enrichedRows_rowids]
  · intro h0
    by_cases hs : scope = "none"
    · subst hs
      rw [export_contact_none_scope]
    · by_cases hE : enrichedRows store now files cid scope days = []
      · rw [export_contact_spec store now files cid scope days hs, if_pos hE]
        exact cursorVal_save_unchanged files now
      · exfalso
        rw [export_contact_spec store now files cid scope days hs, if_neg hE] at h0
        exact hE (List.length_eq_zero.mp h0)

/-- Witness for `cursor_update_rule`: one incremental run over
`oneMsgStore` from a fresh directory raises the cursor to
`max(0, 1) = 1`. -/
theorem cursor_update_rule_witness :
    cursorVal (export_contact oneMsgStore 0 emptyFiles "+1" "incremental" none).1 =
      max (cursorVal emptyFiles)
        (listMaxInt ((fetch_dm_rows oneMsgStore "+1"
          (scopeParams (load_state emptyFiles.state) "incremental" none).1
          (scopeParams (load_state emptyFiles.state) "incremental" none).2 0).map Rec.rowid)) :=
  (cursor_update_rule oneMsgStore 0 emptyFiles "+1" "incremental" none).1
    (by decide) (by decide)

theorem keepRow_some_of_gt {c : Int} {m : StoreRow} (h : c < m.rowid) :
    keepRow (some c) none m = some (rowToRec m (apple_time_to_iso m.date_apple)) := by
  have hle : ¬ (m.rowid ≤ c) := not_le.mpr h
  simp [keepRow, hle]

theorem fetch_after_incremental_empty (store : Store) (files : ContactFiles) (cid : String)
    (now1 now2 : Int) :
    fetch_dm_rows store cid
      (some (cursorVal (export_contact store now1 files cid "incremental" none).1))
      none now2 = [] := by
  rw [show fetch_dm_rows store cid
      (some (cursorVal (export_contact store now1 files cid "incremental" none).1)) none now2 =
      (store.messages.filter
        (fun m => decide (m.handle ∈ normalize_number_variants cid))).filterMap
        (keepRow (some (cursorVal (export_contact store now1 files cid "incremental" none).1))
          none) from rfl]
  rw [List.filterMap_eq_nil_iff]
  intro m hm
  apply keepRow_none_of_le
  by_cases hle : m.rowid ≤ cursorVal files
  · exact le_trans hle (cursorVal_le_export store now1 files cid "incremental" none)
  · push_neg at hle
    have hr : rowToRec m (apple_time_to_iso m.date_apple) ∈
        fetch_dm_rows store cid
          (scopeParams (load_state files.state) "incremental" none).1
          (scopeParams (load_state files.state) "incremental" none).2 now1 := by
      rw [scopeParams_incremental]
      exact List.mem_filterMap.mpr ⟨m, hm, keepRow_some_of_gt hle⟩
    have hE1 : enrichedRows store now1 files cid "incremental" none ≠ [] := by
      intro h0
      rw [enrichedRows] at h0
      rw [List.map_eq_nil_iff] at h0
      rw [h0] at hr
      simp at hr
    have hmem : m.rowid ∈ (enrichedRows store now1 files cid "incremental" none).map Rec.rowid := by
      rw [enrichedRows_rowids]
      exact List.mem_map.mpr ⟨rowToRec m (apple_time_to_iso m.date_apple), hr, rfl⟩
    have hc1 : cursorVal (export_contact store now1 files cid "incremental" none).1 =
        max (cursorVal files)
          (listMaxInt ((enrichedRows store now1 files cid "incremental" none).map Rec.rowid)) := by
      rw [export_contact_spec store now1 files cid "incremental" none (by decide), if_neg hE1]
      rfl
    rw [hc1]
    exact le_trans (mem_le_listMaxInt hmem) (le_max_right _ _)

/-- C4: running the incremental export twice with no change to the store
in between yields a count of 0 on the second call and leaves the snapshot
(JSON), the rollup and the CSV artifacts unchanged — the second run never
writes them (only the state file has its `last_run_at` re-stamped), so
they are trivially byte-for-byte identical under the deterministic
serialization. -/
theorem incremental_export_idempotent (store : Store) (files : ContactFiles) (cid : String)
    (now1 now2 : Int) :
    (export_contact store now2 (export_contact store now1 files cid "incremental" none).1
        cid "incremental" none).2 = 0 ∧
    (export_contact store now2 (export_contact store now1 files cid "incremental" none).1
        cid "incremental" none).1.json
      = (export_contact store now1 files cid "incremental" none).1.json ∧
    (export_contact store now2 (export_contact store now1 files cid "incremental" none).1
        cid "incremental" none).1.rollup
      = (export_contact store now1 files cid "incremental" none).1.rollup ∧
    (export_contact store now2 (export_contact store now1 files cid "incremental" none).1
        cid "incremental" none).1.csv
      = (export_contact store now1 files cid "incremental" none).1.csv := by
  have hfetch2 := fetch_after_incremental_empty store files cid now1 now2
  have hE2 : enrichedRows store now2 (export_contact store now1 files cid "incremental" none).1
      cid "incremental" none = [] := by
    rw [enrichedRows, scopeParams_incremental]
    rw [show (fetch_dm_rows store cid
        (some (safe_int (load_state
          (export_contact store now1 files cid "incremental" none).1.state).last_rowid 0))
        none now2) = fetch_dm_rows store cid
        (some (cursorVal (export_contact store now1 files cid "incremental" none).1))
        none now2 from rfl]
    rw [hfetch2]
    rfl
  rw [export_contact_spec store now2
    (export_contact store now1 files cid "incremental" none).1 cid "incremental" none
    (by decide), if_pos hE2]
  exact ⟨rfl, rfl, rfl, rfl⟩

/-! ## C2 — rollup consistency -/

theorem sumTotals_nil : sumTotals [] = 0 := rfl

theorem sumTotals_cons (a : Int × Bucket) (l : List (Int × Bucket)) :
    sumTotals (a :: l) = a.2.total + sumTotals l := by
  simp [sumTotals]

theorem sumTotals_append (l1 l2 : List (Int × Bucket)) :
    sumTotals (l1 ++ l2) = sumTotals l1 + sumTotals l2 := by
  simp [sumTotals]

theorem lookupDay_none_iff {days : List (Int × Bucket)} {k : Int} :
    lookupDay days k = none ↔ ∀ kv ∈ days, kv.1 ≠ k := by
  simp [lookupDay, List.find?_eq_none]

theorem lookupDay_mem {days : List (Int × Bucket)} {k : Int} {w : Bucket}
    (h : lookupDay days k = some w) : (k, w) ∈ days := by
  simp only [lookupDay, Option.map_eq_some'] at h
  obtain ⟨kv, hfind, hsnd⟩ := h
  have hmem := List.mem_of_find?_eq_some hfind
  have hfst : kv.1 = k := by
    have := List.find?_some hfind
    simpa using this
  have : kv = (k, w) := by
    cases kv
    simp_all
  rw [← this]
  exact hmem

theorem setDay_absent {days : List (Int × Bucket)} {k : Int} (v : Bucket)
    (h : lookupDay days k = none) : setDay days k v = days ++ [(k, v)] := by
  have hany : days.any (fun kv => decide (kv.1 = k)) = false := by
    rw [List.any_eq_false]
    intro kv hkv
    simpa using lookupDay_none_iff.mp h kv hkv
  simp [setDay, hany]

theorem setDay_found_sum {k : Int} {v w : Bucket} :
    ∀ {days : List (Int × Bucket)}, keysNodup days → lookupDay days k = some w →
      sumTotals (setDay days k v) = sumTotals days - w.total + v.total := by
  intro days
  induction days with
  | nil => intro _ hl; simp [lookupDay] at hl
  | cons a rest ih =>
    intro hn hl
    have hnodup := hn
    unfold keysNodup at hnodup
    rw [List.map_cons, List.nodup_cons] at hnodup
    by_cases ha : a.1 = k
    · have hw : w = a.2 := by
        simp [lookupDay, List.find?_cons, ha] at hl
        exact hl.symm
      have hrest_map : rest.map (fun kv => if kv.1 = k then (k, v) else kv) = rest := by
        conv_rhs => rw [← List.map_id rest]
        apply List.map_congr_left
        intro kv hkv
        have : kv.1 ≠ k := by
          intro he
          exact hnodup.1 (by rw [ha, ← he]; exact List.mem_map.mpr ⟨kv, hkv, rfl⟩)
        simp [this]
      have hany : (a :: rest).any (fun kv => decide (kv.1 = k)) = true := by
        simp [List.any_cons, ha]
      rw [show setDay (a :: rest) k v =
          (k, v) :: rest.map (fun kv => if kv.1 = k then (k, v) else kv) by
        simp [setDay, hany, ha]]
      rw [hrest_map, sumTotals_cons, sumTotals_cons, hw]
      ring
    · have hl' : lookupDay rest k = some w := by
        simpa [lookupDay, List.find?_cons, ha] using hl
      have hanyrest : rest.any (fun kv => decide (kv.1 = k)) = true := by
        rw [List.any_eq_true]
        exact ⟨(k, w), lookupDay_mem hl', by simp⟩
      have hany : (a :: rest).any (fun kv => decide (kv.1 = k)) = true := by
        simp [List.any_cons, hanyrest]
      have hsd : setDay (a :: rest) k v =
          a :: rest.map (fun kv => if kv.1 = k then (k, v) else kv) := by
        simp [setDay, hany, ha]
      have hsd_rest : setDay rest k v =
          rest.map (fun kv => if kv.1 = k then (k, v) else kv) := by
        simp [setDay, hanyrest]
      rw [hsd, sumTotals_cons, ← hsd_rest, ih hnodup.2 hl', sumTotals_cons]
      ring

theorem mem_setDay {days : List (Int × Bucket)} {k : Int} {v : Bucket} {x : Int × Bucket}
    (h : x ∈ setDay days k v) : x = (k, v) ∨ x ∈ days := by
  simp only [setDay] at h
  split at h
  · obtain ⟨kv, hkv, hx⟩ := List.mem_map.mp h
    by_cases he : kv.1 = k
    · left; rw [← hx]; simp [he]
    · right; rw [← hx]; simpa [he] using hkv
  · rcases List.mem_append.mp h with h | h
    · right; exact h
    · left; simpa using h

theorem keysNodup_setDay {days : List (Int × Bucket)} {k : Int} {v : Bucket}
    (hn : keysNodup days) : keysNodup (setDay days k v) := by
  unfold keysNodup at *
  simp only [setDay]
  split
  · rw [List.map_map]
    have : days.map ((fun kv => kv.1) ∘ (fun kv => if kv.1 = k then (k, v) else kv))
        = days.map Prod.fst := by
      apply List.map_congr_left
      intro kv _
      by_cases he : kv.1 = k <;> simp [he]
    rw [show (Prod.fst ∘ fun kv => if kv.1 = k then ((k, v) : Int × Bucket) else kv)
        = ((fun kv => kv.1) ∘ (fun kv => if kv.1 = k then (k, v) else kv)) from rfl]
    rw [this]
    exact hn
  · next hany =>
    rw [List.map_append]
    rw [List.nodup_append]
    refine ⟨hn, List.nodup_singleton k, ?_⟩
    intro x hx
    simp only [List.map_cons, List.map_nil, List.mem_singleton]
    intro hxk
    subst hxk
    rw [Bool.not_eq_true, List.any_eq_false] at hany
    obtain ⟨kv, hkv, hfst⟩ := List.mem_map.mp hx
    exact absurd (by simp [hfst]) (hany kv hkv)

theorem addRow_step {days : List (Int × Bucket)} (r : Rec) (hn : keysNodup days)
    (hb : bucketsOk days) :
    keysNodup (addRowToDays days r) ∧ bucketsOk (addRowToDays days r) ∧
    sumTotals (addRowToDays days r) =
      sumTotals days + (if (day_key_from_iso r.date).isSome then 1 else 0) := by
  cases hdk : day_key_from_iso r.date with
  | none =>
    simp only [addRowToDays, hdk, Option.isSome_none, Bool.false_eq_true, if_false]
    exact ⟨hn, hb, by ring⟩
  | some dk =>
    simp only [addRowToDays, hdk, Option.isSome_some, if_true]
    set v0 := (lookupDay days dk).getD { me := 0, them := 0, total := 0 } with hv0
    set v1 := if r.is_from_me ≠ 0 then { v0 with me := v0.me + 1 }
      else { v0 with them := v0.them + 1 } with hv1
    refine ⟨keysNodup_setDay hn, ?_, ?_⟩
    · intro kv hkv
      rcases mem_setDay hkv with rfl | hkv'
      · rfl
      · exact hb kv hkv'
    · cases hl : lookupDay days dk with
      | none =>
        rw [setDay_absent _ hl, sumTotals_append]
        have hv : ({ v1 with total := v1.me + v1.them } : Bucket).total = 1 := by
          rw [hv1, hv0, hl]
          by_cases hf : r.is_from_me ≠ 0 <;> simp [hf]
        rw [sumTotals_cons, sumTotals_nil, hv]
        ring
      | some w =>
        rw [setDay_found_sum hn hl]
        have hw : w.total = w.me + w.them := hb (dk, w) (lookupDay_mem hl)
        have hv : ({ v1 with total := v1.me + v1.them } : Bucket).total = w.total + 1 := by
          rw [hv1, hv0, hl, hw]
          by_cases hf : r.is_from_me ≠ 0 <;> simp [hf] <;> ring
        rw [hv]
        ring

theorem rollfold_step (rows : List Rec) :
    ∀ days : List (Int × Bucket), keysNodup days → bucketsOk days →
      keysNodup (rows.foldl addRowToDays days) ∧
      bucketsOk (rows.foldl addRowToDays days) ∧
      sumTotals (rows.foldl addRowToDays days) =
        sumTotals days + ((rows.countP (fun r => r.date.isSome) : Nat) : Int) := by
  induction rows with
  | nil =>
    intro days hn hb
    exact ⟨hn, hb, by simp⟩
  | cons r rest ih =>
    intro days hn hb
    obtain ⟨hn1, hb1, hsum1⟩ := addRow_step r hn hb
    obtain ⟨hn2, hb2, hsum2⟩ := ih (addRowToDays days r) hn1 hb1
    refine ⟨hn2, hb2, ?_⟩
    rw [List.foldl_cons, hsum2, hsum1, List.countP_cons]
    have hds : (day_key_from_iso r.date).isSome = r.date.isSome := by
      cases r.date <;> simp [day_key_from_iso]
    rw [hds]
    cases hd : r.date
    · simp [hd]
    · simp [hd]
      ring

theorem rollinv_export (store : Store) (now : Int) (files : ContactFiles) (cid : String)
    (scope : String) (days : Option Int) (hinv : RollInv files) :
    RollInv (export_contact store now files cid scope days).1 := by
  by_cases hs : scope = "none"
  · subst hs
    rw [export_contact_none_scope]
    exact hinv
  · rw [export_contact_spec store now files cid scope days hs]
    by_cases hE : enrichedRows store now files cid scope days = []
    · rw [if_pos hE]
      exact hinv
    · rw [if_neg hE]
      obtain ⟨hn, hb, hsum⟩ := hinv
      obtain ⟨hn2, hb2, hsum2⟩ :=
        rollfold_step (enrichedRows store now files cid scope days)
          (rollupDays files.rollup) hn hb
      have hdays : rollupDays (some (update_rollup files.rollup
          (enrichedRows store now files cid scope days) now)) =
          (enrichedRows store now files cid scope days).foldl addRowToDays
            (rollupDays files.rollup) := by
        cases hf : files.rollup <;>
          simp [rollupDays, update_rollup, load_rollup, save_rollup, hf]
      refine ⟨?_, ?_, ?_⟩
      · show keysNodup (rollupDays (some (update_rollup files.rollup
          (enrichedRows store now files cid scope days) now)))
        rw [hdays]
        exact hn2
      · show bucketsOk (rollupDays (some (update_rollup files.rollup
          (enrichedRows store now files cid scope days) now)))
        rw [hdays]
        exact hb2
      · show sumTotals (rollupDays (some (update_rollup files.rollup
          (enrichedRows store now files cid scope days) now))) =
          (((append_json files.json (enrichedRows store now files cid scope days)).countP
            (fun r => r.date.isSome) : Nat) : Int)
        rw [hdays, hsum2, hsum]
        rw [append_json, List.countP_append]
        push_cast
        ring

theorem rollinv_runSeqFrom {cid : String} {files : ContactFiles} {runs : List RunSpec}
    (hinv : RollInv files) : RollInv (runSeqFrom files cid runs) := by
  induction runs generalizing files with
  | nil => exact hinv
  | cons r rs ih =>
    exact ih (rollinv_export r.store r.now files cid r.scope r.days hinv)

/-- C2: after every export run — under any scopes, with the store free to
change between runs — every day bucket of the rollup satisfies
`total = me + them` (`me` counts owner-authored records, `them`
contact-authored), and the totals summed over all day keys equal the
number of records in the persisted snapshot whose canonical timestamp is
non-null. -/
theorem rollup_consistent_with_snapshot (cid : String) (runs : List RunSpec) :
    (∀ kv ∈ rollupDays (runSeq cid runs).rollup, kv.2.total = kv.2.me + kv.2.them) ∧
    sumTotals (rollupDays (runSeq cid runs).rollup) =
      (((runSeq cid runs).json.getD []).countP (fun r => r.date.isSome) : Int) := by
  have hinv : RollInv (runSeq cid runs) := by
    apply rollinv_runSeqFrom
    refine ⟨?_, ?_, ?_⟩
    · exact List.nodup_nil
    · intro kv hkv
      simp [rollupDays, emptyFiles] at hkv
    · simp [rollupDays, emptyFiles, sumTotals]
  exact ⟨hinv.2.1, hinv.2.2⟩
